import Mathlib

/-!
Shallow embedding of the core of the `dav-server-rs` WebDAV handler:
the conditional-request evaluator (`src/conditional.rs`), the dispatcher
(`src/davhandler/mod.rs`), the MKCOL handler (`src/davhandler/handle_mkcol.rs`)
and the OPTIONS handler (`src/davhandler/handle_options.rs`).

Modules `davpath.rs`, `davheaders.rs`, `errors.rs` and the `fs`/`ls` trait
definitions are not part of the provided sources; the few pieces of them
that the embedded functions use are modelled from the specification and
are marked `Modelled from the spec:` in their doc comments.

HTTP status codes are plain naturals; byte strings are `List Nat`;
`SystemTime` is nanoseconds since the Unix epoch as a `Nat` (the embedded
code never deals with pre-epoch times).
-/

set_option autoImplicit false

abbrev StatusCode := Nat

/-- Modelled from the spec: the backend error taxonomy of the absent
`fs` module ("not-found, exists, forbidden, is-remote, not-implemented,
general I/O", spec section 7). -/
inductive FsError where
  | NotFound
  | Forbidden
  | Exists
  | IsRemote
  | NotImplemented
  | GeneralFailure
  deriving DecidableEq, Repr

/-- Modelled from the spec: the error type of the absent `errors.rs`.
`Status` carries a plain status code, `StatusClose` a status code whose
response must additionally close the connection (spec section 4.1 step 3 and
step 7), `FsError` a propagated backend error, `UnknownDavMethod` an
unrecognized verb, `IoError` a transport failure while reading the body. -/
inductive DavError where
  | Status (code : StatusCode)
  | StatusClose (code : StatusCode)
  | FsError (e : FsError)
  | UnknownDavMethod
  | IoError
  deriving DecidableEq, Repr

/-- Modelled from the spec: backend-error to status mapping of the absent
`errors.rs` (spec section 7: "not-found, exists, forbidden, is-remote,
not-implemented, general I/O → mapped to 404/405/403/502/501/500"). -/
def FsError.statuscode : FsError → StatusCode
  | .NotFound => 404
  | .Forbidden => 403
  | .Exists => 405
  | .IsRemote => 502
  | .NotImplemented => 501
  | .GeneralFailure => 500

/-- Modelled from the spec: `DavError::statuscode` of the absent `errors.rs`
(spec section 7: protocol errors map to their carried code, unknown method
to 405, I/O trouble to 500). -/
def DavError.statuscode : DavError → StatusCode
  | .Status c => c
  | .StatusClose c => c
  | .FsError e => e.statuscode
  | .UnknownDavMethod => 405
  | .IoError => 500

/-- Modelled from the spec: `DavError::must_close` of the absent `errors.rs`.
The allow-list rejection is the error "classified must-close" (spec
section 4.1 steps 3 and 7). -/
def DavError.must_close : DavError → Bool
  | .StatusClose _ => true
  | _ => false

/-- Modelled from the spec: resource metadata (spec section 3), reduced to
the capabilities the embedded handlers consult: entity kind, optional
modification time (nanoseconds since epoch) and the derived optional ETag. -/
structure Meta where
  is_dir : Bool
  is_file : Bool
  modified : Option Nat
  etag : Option String
  deriving DecidableEq, Repr

/-- Modelled from the spec: `ETag::from_meta` of the absent `davheaders.rs`;
metadata carries "a derived ETag string" which may be absent. -/
def ETag_from_meta (m : Meta) : Option String := m.etag

/-- Modelled from the spec: the resource path of the absent `davpath.rs`:
a normalized path relative to the configured prefix (spec section 3). -/
structure DavPath where
  path : String
  pfx : String
  deriving DecidableEq, Repr

/-- Rust `str::starts_with`, modelled structurally over the char list. -/
def strStarts (s pre : String) : Bool := pre.data.isPrefixOf s.data

/-- Rust `str::ends_with`, modelled structurally over the char list. -/
def strEnds (s suf : String) : Bool := suf.data.isSuffixOf s.data

/-- Split a char list on a separator: the list of segments between
occurrences of `sep` (Rust `str::split`). -/
def splitSeg (sep : Char) : List Char → List (List Char)
  | [] => [[]]
  | c :: rest =>
    let acc := splitSeg sep rest
    if c = sep then [] :: acc
    else
      match acc with
      | s :: tail => (c :: s) :: tail
      | [] => [[c]]

/-- Rust `str::contains` (substring test), modelled structurally. -/
def listInfix (pat : List Char) : List Char → Bool
  | [] => pat.isEmpty
  | c :: rest => pat.isPrefixOf (c :: rest) || listInfix pat rest

/-- Rust `str::contains` on strings. -/
def containsSub (s pat : String) : Bool := listInfix pat.data s.data

/-- Path validity check modelled from the spec: "starts with `/`; contains
no `.` or `..` components". -/
def pathOk (s : String) : Bool :=
  strStarts s "/" &&
    (splitSeg '/' s.data).all (fun seg => seg != ".".data && seg != "..".data)

/-- Modelled from the spec: `DavPath::from_str_and_prefix` of the absent
`davpath.rs`: scope a URL path under the configured prefix, failing when
the prefix does not match or the remainder is not a valid resource path. -/
def DavPath.from_str_and_pfx (s pfx : String) : Option DavPath :=
  if strStarts s pfx then
    let rest : String := ⟨s.data.drop pfx.data.length⟩
    let rest := if rest = "" then "/" else rest
    if pathOk rest then some ⟨rest, pfx⟩ else none
  else none

/-- Modelled from the spec: `DavPath::from_uri_and_prefix` of the absent
`davpath.rs`; parse failure is a `400 Bad Request` (spec section 4.1 step 4),
and the star path `*` is kept distinguished (spec section 3). -/
def DavPath.from_uri_and_pfx (uri pfx : String) : Except DavError DavPath :=
  if uri = "*" then .ok ⟨"*", pfx⟩
  else
    match DavPath.from_str_and_pfx uri pfx with
    | some p => .ok p
    | none => .error (.Status 400)

/-- Modelled from the spec: a collection path "ends in `/`" (spec glossary). -/
def DavPath.is_collection (p : DavPath) : Bool := strEnds p.path "/"

/-- Modelled from the spec: the star path `*` (OPTIONS target). -/
def DavPath.is_star (p : DavPath) : Bool := p.path = "*"

/-- Modelled from the spec: `DavPath::add_slash` produces the
trailing-slash (collection) form of the path. -/
def DavPath.add_slash (p : DavPath) : DavPath :=
  if strEnds p.path "/" then p else ⟨p.path ++ "/", p.pfx⟩

/-- Modelled from the spec: `DavPath::as_url_string` — the URL string of
the path relative to the prefix (percent-encoding is out of scope: the
modelled paths are plain ASCII). -/
def DavPath.as_url_string (p : DavPath) : String := p.path

/-- Modelled from the spec: `path.with_prefix().as_url_string()` — the URL
string of the path with the configured prefix applied. -/
def DavPath.with_pfx_url (p : DavPath) : String := p.pfx ++ p.path

/-- The file-system contract (`DavFileSystem`), reduced to the operations
the embedded handlers invoke; a backend is an arbitrary pair of functions. -/
structure FS where
  metadata : DavPath → Except FsError Meta
  create_dir : DavPath → Except FsError Unit

/-- The lock-system contract (`DavLockSystem`), reduced to `check`:
arguments are path, principal, ignore-principal, check-subtree, submitted
tokens; the result is `true` when the Rust `check` returns `Ok`. -/
structure LS where
  check : DavPath → Option String → Bool → Bool → List String → Bool

/-- `ETagList` of the absent `davheaders.rs`: either `*` or a list of tags
(used by `If-Match` / `If-None-Match`). -/
inductive ETagList where
  | Star
  | Tags (ts : List String)
  deriving DecidableEq, Repr

/-- `IfItem` of the absent `davheaders.rs`: a condition is either a state
token or an entity tag (spec section 4.2). -/
inductive IfItem where
  | StateToken (s : String)
  | ETag (tag : String)
  deriving DecidableEq, Repr

/-- A single condition of a WebDAV `If` header list, optionally negated. -/
structure IfCondition where
  not : Bool
  item : IfItem
  deriving DecidableEq, Repr

/-- One list of a WebDAV `If` header: an optional resource-tag URL path and
a conjunction of conditions (spec section 4.2). -/
structure IfList where
  resource_tag : Option String
  conditions : List IfCondition
  deriving DecidableEq, Repr

/-- An HTTP request as the conditional evaluator and the dispatcher see it:
the method string, the URI path, the User-Agent header, and the parsed
conditional headers (absent `davheaders.rs` parsing is modelled as
already-parsed optional values). Dates are nanoseconds since epoch. -/
structure Req where
  method : String
  uriPath : String
  userAgent : Option String
  ifMatch : Option ETagList
  ifUnmodSince : Option Nat
  ifNoneMatch : Option ETagList
  ifModSince : Option Nat
  ifHeader : Option (List IfList)
  deriving DecidableEq, Repr

/-- `round_time` from `conditional.rs`: round a `SystemTime` down to whole
seconds (times are nanoseconds since epoch; the pre-epoch branch of the
source cannot arise in this model). -/
def round_time (t : Nat) : Nat := t / 1000000000 * 1000000000

/-- `etaglist_match` from `conditional.rs`. -/
def etaglist_match (tags : ETagList) (ex : Bool) (tag : Option String) : Bool :=
  match tags with
  | .Star => ex
  | .Tags t =>
    match tag with
    | some tag => t.any (fun x => x == tag)
    | none => false

/-- `http_if_match` from `conditional.rs` (RFC 7232 conditional requests). -/
def http_if_match (req : Req) (meta : Option Meta) : Option StatusCode :=
  let file_modified := meta.bind (fun m => m.modified)
  let step1 : Option StatusCode :=
    match req.ifMatch with
    | some r =>
      let etag := meta.bind ETag_from_meta
      if !(etaglist_match r meta.isSome etag) then some 412 else none
    | none =>
      match req.ifUnmodSince with
      | some r =>
        match file_modified with
        | none => some 412
        | some fm => if round_time fm > round_time r then some 412 else none
      | none => none
  match step1 with
  | some c => some c
  | none =>
    match req.ifNoneMatch with
    | some r =>
      let etag := meta.bind ETag_from_meta
      if etaglist_match r meta.isSome etag then
        if req.method == "GET" || req.method == "HEAD" then some 304 else some 412
      else none
    | none =>
      match req.ifModSince with
      | some r =>
        if req.method == "GET" || req.method == "HEAD" then
          match file_modified with
          | some fm => if round_time fm ≤ round_time r then some 304 else none
          | none => none
        else none
      | none => none

/-- Evaluation of one `If` header condition item, from the body of the
conditions loop of `dav_if_match` in `conditional.rs`. -/
def cond_eval (fs : FS) (ls : Option LS) (valid : Bool) (p : DavPath) :
    IfItem → Bool
  | .StateToken s =>
    if !valid || strStarts s "DAV:" then false
    else
      match ls with
      | some l => l.check p none true false [s]
      | none => false
  | .ETag tag =>
    if !valid then false
    else
      match fs.metadata p with
      | .ok meta =>
        match ETag_from_meta meta with
        | some mtag => tag == mtag
        | none => false
      | .error _ => false

/-- The inner conditions loop of `dav_if_match`: `acc` is the running
`list_ok`; a condition whose evaluation equals its `not` flag aborts the
list with `false`, otherwise `list_ok` becomes `true`. -/
def conds_eval (fs : FS) (ls : Option LS) (valid : Bool) (p : DavPath) :
    List IfCondition → Bool → Bool
  | [], acc => acc
  | c :: rest, _ =>
    if cond_eval fs ls valid p c.item == c.not then false
    else conds_eval fs ls valid p rest true

/-- Resolution of an `If` list's resource tag, from `dav_if_match`:
no tag means the request path (valid), a tag that parses under the request
path's prefix gives that path (valid), a failing tag keeps the request path
but marks the list invalid. -/
def resource_of (l : IfList) (path : DavPath) : DavPath × Bool :=
  match l.resource_tag with
  | some url =>
    match DavPath.from_str_and_pfx url path.pfx with
    | some p => (p, true)
    | none => (path, false)
  | none => (path, true)

/-- The state tokens occurring in one `If` list, in order. -/
def stateTokensOf (l : IfList) : List String :=
  l.conditions.filterMap (fun c =>
    match c.item with
    | .StateToken t => some t
    | _ => none)

/-- The outer lists loop of `dav_if_match`: harvest every list's state
tokens, and evaluate lists while no previous list succeeded. -/
def dav_if_match_loop (fs : FS) (ls : Option LS) (path : DavPath) :
    List IfList → Bool → List String → Bool × List String
  | [], any_ok, toks => (any_ok, toks)
  | l :: rest, any_ok, toks =>
    let toks := toks ++ stateTokensOf l
    if any_ok then dav_if_match_loop fs ls path rest true toks
    else
      let pv := resource_of l path
      let list_ok := conds_eval fs ls pv.2 pv.1 l.conditions false
      dav_if_match_loop fs ls path rest list_ok toks

/-- `dav_if_match` from `conditional.rs` (RFC 4918 section 10.4 `If` header):
returns whether the header is absent or some list evaluates true, plus all
encountered state tokens. -/
def dav_if_match (req : Req) (fs : FS) (ls : Option LS) (path : DavPath) :
    Bool × List String :=
  match req.ifHeader with
  | none => (true, [])
  | some lists => dav_if_match_loop fs ls path lists false []

/-- `if_match` from `conditional.rs`: the WebDAV `If` header first, then
the HTTP `If-*` family. -/
def if_match (req : Req) (meta : Option Meta) (fs : FS) (ls : Option LS)
    (path : DavPath) : Option StatusCode :=
  match dav_if_match req fs ls path with
  | (true, _) => http_if_match req meta
  | (false, _) => some 412

/-- `if_match_get_tokens` from `conditional.rs`: the HTTP `If-*` family
first, then the WebDAV `If` header; on success the harvested state tokens. -/
def if_match_get_tokens (req : Req) (meta : Option Meta) (fs : FS)
    (ls : Option LS) (path : DavPath) : Except StatusCode (List String) :=
  match http_if_match req meta with
  | some code => .error code
  | none =>
    match dav_if_match req fs ls path with
    | (true, v) => .ok v
    | (false, _) => .error 412

/-- The internal verb set (`DavMethod` from `util.rs`): the thirteen
HTTP/DAV methods the server handles. -/
inductive DavMethod where
  | HEAD | GET | PUT | PATCH | OPTIONS | PROPFIND | PROPPATCH
  | MKCOL | COPY | MOVE | DELETE | LOCK | UNLOCK
  deriving DecidableEq, Repr

/-- `dav_method` from `util.rs`: translate the HTTP method string into the
internal verb set; unknown verbs are refused. -/
def dav_method (m : String) : Except DavError DavMethod :=
  match m with
  | "HEAD" => .ok .HEAD
  | "GET" => .ok .GET
  | "PUT" => .ok .PUT
  | "PATCH" => .ok .PATCH
  | "DELETE" => .ok .DELETE
  | "OPTIONS" => .ok .OPTIONS
  | "PROPFIND" => .ok .PROPFIND
  | "PROPPATCH" => .ok .PROPPATCH
  | "MKCOL" => .ok .MKCOL
  | "COPY" => .ok .COPY
  | "MOVE" => .ok .MOVE
  | "LOCK" => .ok .LOCK
  | "UNLOCK" => .ok .UNLOCK
  | _ => .error .UnknownDavMethod

/-- Modelled from the spec: the allowed-method set of the absent
`DavMethodSet` wrapper — "a subset of the thirteen" with membership test. -/
def DavMethodSet := DavMethod → Bool

/-- The handler configuration (`DavHandler` / `DavBuilder`), reduced to the
fields the embedded code paths consult. -/
structure Config where
  pfx : String
  fs : FS
  ls : Option LS
  allow : DavMethodSet
  principal : Option String

/-- `DavHandler::path` helper from `davhandler/mod.rs`: re-parse the request
URI under the prefix; by the time a handler runs this cannot fail (the
dispatcher already validated it), so the error branch is a dummy. -/
def DavHandler.path (cfg : Config) (req : Req) : DavPath :=
  match DavPath.from_uri_and_pfx req.uriPath cfg.pfx with
  | .ok p => p
  | .error _ => ⟨"/", cfg.pfx⟩

/-- A request body as a sequence of byte chunks (the `HttpBody` stream of
`read_request`; transport errors are out of scope of the claims). -/
abbrev BodyChunks := List (List Nat)

/-- The accumulation loop of `read_request` from `davhandler/mod.rs`:
before absorbing a chunk, overflowing `max_size` aborts with
`413 Payload Too Large`; `data` is the bytes drained so far. -/
def read_request_go (max_size : Nat) : List Nat → BodyChunks → Except DavError (List Nat)
  | data, [] => .ok data
  | data, buf :: rest =>
    if data.length + buf.length > max_size then .error (.Status 413)
    else read_request_go max_size (data ++ buf) rest

/-- `read_request` from `davhandler/mod.rs`: drain the request body into a
vector, capped at `max_size` bytes. -/
def read_request (body : BodyChunks) (max_size : Nat) : Except DavError (List Nat) :=
  read_request_go max_size [] body

/-- The outcome of the dispatcher prelude: which handler is invoked, on
which path, with which pre-read body data and (for PUT/PATCH) which body
stream. -/
structure Dispatched where
  method : DavMethod
  dpath : DavPath
  body_data : List Nat
  body_strm : Option BodyChunks
  deriving DecidableEq, Repr

/-- `handle2` from `davhandler/mod.rs` up to (and excluding) the final
dispatch `match`: method translation, allow-list check, path validation,
body-intake policy and the body-forbidden check. Reaching `.ok` means the
corresponding method handler is invoked with exactly these arguments. -/
def handle2 (cfg : Config) (req : Req) (body : BodyChunks) :
    Except DavError Dispatched :=
  match dav_method req.method with
  | .error e => .error e
  | .ok method =>
    if !(cfg.allow method) then .error (.StatusClose 405)
    else
      match DavPath.from_uri_and_pfx req.uriPath cfg.pfx with
      | .error e => .error e
      | .ok path =>
        let rr : Except DavError (Option BodyChunks × List Nat) :=
          match method with
          | .PUT | .PATCH => .ok (some body, [])
          | _ => (read_request body 65536).map (fun d => (none, d))
        match rr with
        | .error e => .error e
        | .ok (strm, data) =>
          match method with
          | .PUT | .PATCH | .PROPFIND | .PROPPATCH | .LOCK =>
            .ok ⟨method, path, data, strm⟩
          | _ =>
            if !data.isEmpty then .error (.Status 415)
            else .ok ⟨method, path, data, strm⟩

/-- An HTTP response: status, header list (in emission order) and body. -/
structure Resp where
  status : StatusCode
  headers : List (String × String)
  body : List Nat
  deriving DecidableEq, Repr

/-- The error-shaping arm of `handle_inner` from `davhandler/mod.rs`:
Microsoft clients receiving a 404 get anti-cache headers (the source
misspells the `Pragma` header as `"Progma"`); every error response has an
empty body with `Content-Length: 0`, and must-close errors also get
`connection: close`. -/
def errorResponse (is_ms : Bool) (err : DavError) : Resp :=
  { status := err.statuscode
    headers :=
      (if is_ms && err.statuscode == 404 then
        [("Cache-Control", "no-store, no-cache, must-revalidate"),
         ("Progma", "no-cache"),
         ("Expires", "0"),
         ("Vary", "*")]
      else []) ++
      [("Content-Length", "0")] ++
      (if err.must_close then [("connection", "close")] else [])
    body := [] }

/-- `handle_inner` from `davhandler/mod.rs`: detect Microsoft clients from
the User-Agent, run the dispatcher (`handle2`) composed with the method
handlers, and shape any error into a status-only response. The method
handlers themselves are a parameter. -/
def handle_inner (cfg : Config) (req : Req) (body : BodyChunks)
    (handlers : Dispatched → Except DavError Resp) : Resp :=
  let is_ms :=
    match req.userAgent with
    | some s => containsSub s "Microsoft"
    | none => false
  match (handle2 cfg req body).bind handlers with
  | .ok resp => resp
  | .error err => errorResponse is_ms err

/-- `handle_mkcol` from `davhandler/handle_mkcol.rs`: evaluate the
conditional headers, check lock coverage with the harvested tokens, then
`create_dir` with RFC 4918 9.3.1 error mapping; on success `201 Created`
with a `content-location` header when the request path is in collection
form. -/
def handle_mkcol (cfg : Config) (req : Req) : Except DavError Resp :=
  let path := DavHandler.path cfg req
  let meta := cfg.fs.metadata path
  match if_match_get_tokens req meta.toOption cfg.fs cfg.ls path with
  | .error s => .error (.Status s)
  | .ok tokens =>
    let lock_ok :=
      match cfg.ls with
      | some locksystem => locksystem.check path cfg.principal false false tokens
      | none => true
    if !lock_ok then .error (.Status 423)
    else
      match cfg.fs.create_dir path with
      | .error .Exists => .error (.Status 405)
      | .error .NotFound => .error (.Status 409)
      | .error e => .error (.FsError e)
      | .ok () =>
        let hdrs :=
          if path.is_collection then
            [("content-location", (path.add_slash).with_pfx_url)]
          else []
        .ok { status := 201, headers := hdrs, body := [] }

/-- The `islock` helper of `handle_options`. -/
def islock (m : DavMethod) : Bool := m == .LOCK || m == .UNLOCK

/-- The `mm` closure of `handle_options` from
`davhandler/handle_options.rs`: append a method name to the `Allow` list
when it is not the (non-OPTIONS) current method, is backed by a lock system
if it is a locking method, and is in the configured allow-list. -/
def mm (method : DavMethod) (lsPresent : Bool) (allow : DavMethodSet)
    (v : List String) (m : String) (y : DavMethod) : List String :=
  if (y == .OPTIONS || (y != method || islock y != islock method))
      && (!islock y || lsPresent) && allow y then
    v ++ [m]
  else v

/-- The `Allow`-list computation of `handle_options`: the missing-resource
branch offers {OPTIONS, MKCOL, PUT, LOCK}; the mapped branch offers the
file/star methods plus the collection-safe set, without MOVE/DELETE at the
root. -/
def optionsAllowList (cfg : Config) (req : Req) : List String :=
  let method := (dav_method req.method).toOption.getD .OPTIONS
  let meta := cfg.fs.metadata (DavHandler.path cfg req)
  let is_unmapped := !meta.isOk
  let is_file := (meta.map (fun m => m.is_file)).toOption.getD false
  let is_star := (DavHandler.path cfg req).is_star && method == .OPTIONS
  let app := mm method cfg.ls.isSome cfg.allow
  if is_unmapped && !is_star then
    app (app (app (app [] "OPTIONS" .OPTIONS) "MKCOL" .MKCOL) "PUT" .PUT) "LOCK" .LOCK
  else
    let v := []
    let v :=
      if is_file || is_star then
        app (app (app (app v "HEAD" .HEAD) "GET" .GET) "PATCH" .PATCH) "PUT" .PUT
      else v
    let v := app (app (app v "OPTIONS" .OPTIONS) "PROPFIND" .PROPFIND) "COPY" .COPY
    let v :=
      if (DavHandler.path cfg req).as_url_string != "/" then
        app (app v "MOVE" .MOVE) "DELETE" .DELETE
      else v
    app (app v "LOCK" .LOCK) "UNLOCK" .UNLOCK

/-- `handle_options` from `davhandler/handle_options.rs`: advertise DAV
compliance classes and the computed `Allow` list. -/
def handle_options (cfg : Config) (req : Req) : Except DavError Resp :=
  .ok { status := 200
        headers :=
          [("DAV", "1,2,3,sabredav-partialupdate"),
           ("MS-Author-Via", "DAV"),
           ("content-length", "0"),
           ("allow", String.intercalate "," (optionsAllowList cfg req))]
        body := [] }

/-! ### Helper lemmas about the `If`-header evaluation loops -/

/-- For two booleans, `(a != b) = true` is exactly `a = !b`. -/
theorem bool_bne_iff : ∀ a b : Bool, ((a != b) = true) ↔ (a = !b) := by decide

/-- With a `true` accumulator, the conditions loop is the conjunction of
all conditions evaluating differently from their `not` flag. -/
theorem conds_eval_true_eq (fs : FS) (ls : Option LS) (valid : Bool) (p : DavPath) :
    ∀ l : List IfCondition,
      conds_eval fs ls valid p l true =
        l.all (fun c => cond_eval fs ls valid p c.item != c.not) := by
  intro l
  induction l with
  | nil => rfl
  | cons c rest ih =>
    simp only [conds_eval, List.all_cons]
    by_cases h : cond_eval fs ls valid p c.item = c.not
    · simp [h]
    · have hb : (cond_eval fs ls valid p c.item == c.not) = false := by
        simp [h]
      simp [hb, ih]
      cases hcc : cond_eval fs ls valid p c.item <;> cases hcn : c.not <;>
        simp_all

/-- From the initial `false` accumulator, the conditions loop demands a
nonempty conjunction: it is `true` iff the list is nonempty and every
condition evaluates differently from its `not` flag. -/
theorem conds_eval_false_eq (fs : FS) (ls : Option LS) (valid : Bool) (p : DavPath) :
    ∀ l : List IfCondition,
      conds_eval fs ls valid p l false =
        (!l.isEmpty && l.all (fun c => cond_eval fs ls valid p c.item != c.not)) := by
  intro l
  cases l with
  | nil => rfl
  | cons c rest =>
    simp only [List.isEmpty_cons, Bool.not_false, Bool.true_and]
    have h1 : conds_eval fs ls valid p (c :: rest) false =
        conds_eval fs ls valid p (c :: rest) true := rfl
    rw [h1, conds_eval_true_eq]

/-- Truth of one `If` list under `dav_if_match`: the conditions are a
nonempty conjunction evaluated at the list's resolved resource. -/
def listTrue (fs : FS) (ls : Option LS) (path : DavPath) (l : IfList) : Bool :=
  !l.conditions.isEmpty &&
    l.conditions.all (fun c =>
      cond_eval fs ls (resource_of l path).2 (resource_of l path).1 c.item != c.not)

/-- All state tokens of an `If` header, in header order. -/
def allStateTokens : List IfList → List String
  | [] => []
  | l :: rest => stateTokensOf l ++ allStateTokens rest

/-- The lists loop always returns the accumulated tokens followed by every
state token of the remaining lists, whatever the evaluation state. -/
theorem dav_loop_toks (fs : FS) (ls : Option LS) (path : DavPath) :
    ∀ (lists : List IfList) (any_ok : Bool) (toks : List String),
      (dav_if_match_loop fs ls path lists any_ok toks).2 =
        toks ++ allStateTokens lists := by
  intro lists
  induction lists with
  | nil => intro any_ok toks; simp [dav_if_match_loop, allStateTokens]
  | cons l rest ih =>
    intro any_ok toks
    simp only [dav_if_match_loop, allStateTokens]
    cases any_ok with
    | true => rw [if_pos rfl, ih, List.append_assoc]
    | false =>
      rw [if_neg (by simp), ih, List.append_assoc]

/-- The lists loop evaluates to the accumulator disjoined with the truth of
any remaining list. -/
theorem dav_loop_ok (fs : FS) (ls : Option LS) (path : DavPath) :
    ∀ (lists : List IfList) (any_ok : Bool) (toks : List String),
      (dav_if_match_loop fs ls path lists any_ok toks).1 =
        (any_ok || lists.any (listTrue fs ls path)) := by
  intro lists
  induction lists with
  | nil => intro any_ok toks; simp [dav_if_match_loop]
  | cons l rest ih =>
    intro any_ok toks
    simp only [dav_if_match_loop, List.any_cons]
    cases any_ok with
    | true => rw [if_pos rfl, ih]; simp
    | false =>
      rw [if_neg (by simp), ih]
      rw [conds_eval_false_eq]
      simp [listTrue]

/-- C1: `dav_if_match` returns `true` when no `If` header is present; with
a header (whose lists are nonempty, as the RFC 4918 section 10.4.2 grammar
guarantees of parsed headers) it returns `true` iff some list's conditions
all evaluate to the complement of their `not` flag; and in every case the
returned tokens are exactly all state tokens of the header, independent of
the evaluation outcome. -/
theorem dav_if_match_correct (req : Req) (fs : FS) (ls : Option LS) (path : DavPath)
    (hwf : ∀ l ∈ req.ifHeader.getD [], l.conditions ≠ []) :
    (req.ifHeader = none → dav_if_match req fs ls path = (true, [])) ∧
    (∀ lists, req.ifHeader = some lists →
      ((dav_if_match req fs ls path).1 = true ↔
        ∃ l ∈ lists, ∀ c ∈ l.conditions,
          cond_eval fs ls (resource_of l path).2 (resource_of l path).1 c.item
            = !c.not) ∧
      (dav_if_match req fs ls path).2 = allStateTokens lists) := by
  constructor
  · intro h; simp [dav_if_match, h]
  · intro lists h
    rw [h] at hwf
    simp only [Option.getD_some] at hwf
    constructor
    · rw [dav_if_match, h, dav_loop_ok, Bool.false_or, List.any_eq_true]
      constructor
      · rintro ⟨l, hl, hlt⟩
        refine ⟨l, hl, ?_⟩
        intro c hc
        have hall := ((Bool.and_eq_true _ _).mp hlt).2
        rw [List.all_eq_true] at hall
        exact (bool_bne_iff _ _).mp (hall c hc)
      · rintro ⟨l, hl, hall⟩
        refine ⟨l, hl, ?_⟩
        rw [listTrue, Bool.and_eq_true]
        constructor
        · cases hcs : l.conditions with
          | nil => exact absurd hcs (hwf l hl)
          | cons a b => simp
        · rw [List.all_eq_true]
          intro c hc
          exact (bool_bne_iff _ _).mpr (hall c hc)
    · rw [dav_if_match, h, dav_loop_toks, List.nil_append]

/-- C9: without a lock system every state-token condition evaluates to
`false`, so an `If` header whose every list contains a non-negated
state-token condition makes `dav_if_match` fail, whatever the token. -/
theorem dav_if_match_no_locksystem (req : Req) (fs : FS) (path : DavPath)
    (lists : List IfList) (hh : req.ifHeader = some lists)
    (hlists : ∀ l ∈ lists, ∃ c ∈ l.conditions,
      c.not = false ∧ ∃ s, c.item = IfItem.StateToken s) :
    (∀ (valid : Bool) (p : DavPath) (s : String),
      cond_eval fs none valid p (IfItem.StateToken s) = false) ∧
    (dav_if_match req fs none path).1 = false := by
  have heval : ∀ (valid : Bool) (p : DavPath) (s : String),
      cond_eval fs none valid p (IfItem.StateToken s) = false := by
    intro valid p s
    simp only [cond_eval]
    split <;> rfl
  refine ⟨heval, ?_⟩
  rw [dav_if_match, hh, dav_loop_ok, Bool.false_or]
  rw [List.any_eq_false]
  intro l hl
  obtain ⟨c, hc, hnot, s, hitem⟩ := hlists l hl
  intro hlt
  rw [listTrue, Bool.and_eq_true] at hlt
  have hall := hlt.2
  rw [List.all_eq_true] at hall
  have hx := hall c hc
  rw [hitem, heval, hnot] at hx
  simp at hx

/-- Fixtures: a file system whose every path is missing, and simple
paths/requests used to instantiate the theorems. -/
def fsNotFound : FS :=
  { metadata := fun _ => .error .NotFound
    create_dir := fun _ => .ok () }

/-- Fixture: a request with no conditional headers at all. -/
def reqPlain : Req :=
  { method := "GET"
    uriPath := "/x"
    userAgent := none
    ifMatch := none
    ifUnmodSince := none
    ifNoneMatch := none
    ifModSince := none
    ifHeader := none }

/-- Fixture: the request path `/x` with an empty prefix. -/
def pathX : DavPath := ⟨"/x", ""⟩

/-- Fixture: an `If` header with a single list holding one non-negated
state-token condition. -/
def ifHeaderTok : List IfList := [⟨none, [⟨false, IfItem.StateToken "urn:x"⟩]⟩]

/-- Fixture: a GET request carrying `If-None-Match: *` and the state-token
`If` header — the input on which the two combined evaluators fail with
different status codes. -/
def reqX : Req := { reqPlain with ifNoneMatch := some .Star, ifHeader := some ifHeaderTok }

/-- Fixture: metadata of an existing plain file without an ETag. -/
def metaPlain : Meta := { is_dir := false, is_file := true, modified := none, etag := none }

/-- C10: the two combined condition evaluators agree on success —
`if_match` returns `none` exactly when `if_match_get_tokens` returns `Ok`
— while on failure they can differ: on `reqX` the `If`-header-first
`if_match` fails with 412 where the HTTP-first `if_match_get_tokens`
fails with 304. -/
theorem if_match_agrees_with_get_tokens :
    (∀ (req : Req) (meta : Option Meta) (fs : FS) (ls : Option LS) (path : DavPath),
      if_match req meta fs ls path = none ↔
        ∃ v, if_match_get_tokens req meta fs ls path = .ok v) ∧
    (if_match reqX (some metaPlain) fsNotFound none pathX = some 412 ∧
      if_match_get_tokens reqX (some metaPlain) fsNotFound none pathX = .error 304) := by
  refine ⟨?_, rfl, rfl⟩
  intro req meta fs ls path
  rw [if_match, if_match_get_tokens]
  rcases hd : dav_if_match req fs ls path with ⟨b, v⟩
  cases b with
  | true =>
    cases hm : http_if_match req meta with
    | none => simp
    | some c => simp
  | false =>
    cases hm : http_if_match req meta with
    | none => simp
    | some c => simp

/-- C1 witness: the concrete `If` header `ifHeaderTok` on `fsNotFound`
without a lock system: the header is present, its single list fails, and
the state token is harvested anyway. -/
theorem dav_if_match_correct_witness :
    (dav_if_match { reqPlain with ifHeader := some ifHeaderTok } fsNotFound none pathX).2
        = allStateTokens ifHeaderTok ∧
    ¬((dav_if_match { reqPlain with ifHeader := some ifHeaderTok } fsNotFound none pathX).1 = true ∧
      ¬∃ l ∈ ifHeaderTok, ∀ c ∈ l.conditions,
        cond_eval fsNotFound none (resource_of l pathX).2 (resource_of l pathX).1 c.item
          = !c.not) := by
  have h := (dav_if_match_correct { reqPlain with ifHeader := some ifHeaderTok }
    fsNotFound none pathX (by decide)).2 ifHeaderTok rfl
  exact ⟨h.2, fun hc => hc.2 (h.1.mp hc.1)⟩

/-- C9 witness: on the concrete single-token header the precondition fails
without a lock system. -/
theorem dav_if_match_no_locksystem_witness :
    (dav_if_match { reqPlain with ifHeader := some ifHeaderTok } fsNotFound none pathX).1
      = false := by
  have hw : ∀ l ∈ ifHeaderTok, ∃ c ∈ l.conditions,
      c.not = false ∧ ∃ s, c.item = IfItem.StateToken s := by
    intro l hl
    simp only [ifHeaderTok, List.mem_singleton] at hl
    subst hl
    exact ⟨⟨false, IfItem.StateToken "urn:x"⟩, by simp, rfl, "urn:x", rfl⟩
  exact (dav_if_match_no_locksystem { reqPlain with ifHeader := some ifHeaderTok }
    fsNotFound pathX ifHeaderTok rfl hw).2

/-! ### Helper lemmas about the dispatcher's body intake -/

/-- If the bytes drained so far plus the remaining chunks fit in
`max_size`, the intake loop succeeds with everything concatenated. -/
theorem read_request_go_le (max_size : Nat) :
    ∀ (chunks : BodyChunks) (data : List Nat),
      data.length + chunks.flatten.length ≤ max_size →
      read_request_go max_size data chunks = .ok (data ++ chunks.flatten) := by
  intro chunks
  induction chunks with
  | nil => intro data h; simp [read_request_go]
  | cons buf rest ih =>
    intro data h
    rw [List.flatten_cons, List.length_append] at h
    rw [read_request_go, if_neg (by omega)]
    rw [ih (data ++ buf) (by rw [List.length_append]; omega)]
    simp

/-- If the bytes drained so far fit but the whole stream does not, the
intake loop aborts with `413 Payload Too Large`. -/
theorem read_request_go_gt (max_size : Nat) :
    ∀ (chunks : BodyChunks) (data : List Nat),
      data.length ≤ max_size →
      data.length + chunks.flatten.length > max_size →
      read_request_go max_size data chunks = .error (.Status 413) := by
  intro chunks
  induction chunks with
  | nil => intro data hle hgt; simp at hgt; omega
  | cons buf rest ih =>
    intro data hle hgt
    rw [List.flatten_cons, List.length_append] at hgt
    by_cases hb : data.length + buf.length > max_size
    · rw [read_request_go, if_pos hb]
    · rw [read_request_go, if_neg hb]
      exact ih (data ++ buf) (by rw [List.length_append]; omega)
        (by rw [List.length_append]; omega)

/-- A body of total size at most `max_size` is drained in full. -/
theorem read_request_ok (body : BodyChunks) (max_size : Nat)
    (h : body.flatten.length ≤ max_size) :
    read_request body max_size = .ok body.flatten := by
  rw [read_request, read_request_go_le max_size body [] (by simpa using h)]
  simp

/-- A body of total size exceeding `max_size` fails with `413`. -/
theorem read_request_413 (body : BodyChunks) (max_size : Nat)
    (h : body.flatten.length > max_size) :
    read_request body max_size = .error (.Status 413) := by
  rw [read_request, read_request_go_gt max_size body [] (by simp) (by simpa using h)]

/-- C2: for a mapped, allowed non-PUT/non-PATCH method on a valid path,
a body exceeding 65,536 bytes makes the dispatcher fail with `413` before
any handler is reached, while a body within the cap is drained in full by
`read_request`. -/
theorem handle2_body_cap (cfg : Config) (req : Req) (body : BodyChunks)
    (m : DavMethod) (path : DavPath)
    (hm : dav_method req.method = .ok m)
    (hput : m ≠ DavMethod.PUT) (hpatch : m ≠ DavMethod.PATCH)
    (hallow : cfg.allow m = true)
    (hpath : DavPath.from_uri_and_pfx req.uriPath cfg.pfx = .ok path) :
    (body.flatten.length > 65536 → handle2 cfg req body = .error (.Status 413)) ∧
    (body.flatten.length ≤ 65536 → read_request body 65536 = .ok body.flatten) := by
  refine ⟨?_, fun h => read_request_ok body 65536 h⟩
  intro h413
  have hrr := read_request_413 body 65536 h413
  cases m <;> first
    | exact absurd rfl hput
    | exact absurd rfl hpatch
    | simp [handle2, hm, hallow, hpath, hrr, Except.map]

/-- Fixture: a configuration over `fsNotFound` allowing every method,
without a lock system. -/
def cfgAll : Config :=
  { pfx := ""
    fs := fsNotFound
    ls := none
    allow := fun _ => true
    principal := none }

/-- Fixture: the same configuration with an empty allow-list. -/
def cfgNone : Config := { cfgAll with allow := fun _ => false }

/-- Fixture: a plain DELETE request. -/
def reqDel : Req := { reqPlain with method := "DELETE" }

/-- C2 witness: a DELETE request with a 65,537-byte body is rejected
with `413 Payload Too Large`. -/
theorem handle2_body_cap_witness :
    handle2 cfgAll reqDel [List.replicate 65537 0] = .error (.Status 413) := by
  refine (handle2_body_cap cfgAll reqDel [List.replicate 65537 0]
    DavMethod.DELETE ⟨"/x", ""⟩ rfl (by decide) (by decide) rfl rfl).1 ?_
  rw [List.flatten_cons, List.flatten_nil, List.append_nil, List.length_replicate]
  omega

/-- C3: a verb that forbids a body (OPTIONS, HEAD, GET, MKCOL, DELETE,
COPY, MOVE, UNLOCK), mapped, allowed, on a valid path, with a non-empty
in-cap body, is rejected with `415 Unsupported Media Type` before any
handler is reached. -/
theorem handle2_forbidden_body (cfg : Config) (req : Req) (body : BodyChunks)
    (m : DavMethod) (path : DavPath)
    (hm : dav_method req.method = .ok m)
    (hverb : m = DavMethod.OPTIONS ∨ m = DavMethod.HEAD ∨ m = DavMethod.GET ∨
      m = DavMethod.MKCOL ∨ m = DavMethod.DELETE ∨ m = DavMethod.COPY ∨
      m = DavMethod.MOVE ∨ m = DavMethod.UNLOCK)
    (hallow : cfg.allow m = true)
    (hpath : DavPath.from_uri_and_pfx req.uriPath cfg.pfx = .ok path)
    (hsize : body.flatten.length ≤ 65536)
    (hne : body.flatten ≠ []) :
    handle2 cfg req body = .error (.Status 415) := by
  have hrr := read_request_ok body 65536 hsize
  have hemp : body.flatten.isEmpty = false := by
    cases h : body.flatten with
    | nil => exact absurd h hne
    | cons a l => rfl
  rcases hverb with rfl | rfl | rfl | rfl | rfl | rfl | rfl | rfl <;>
    simp [handle2, hm, hallow, hpath, hrr, hemp, Except.map]

/-- C3 witness: a DELETE request with a one-byte body is rejected with
`415 Unsupported Media Type`. -/
theorem handle2_forbidden_body_witness :
    handle2 cfgAll reqDel [[1]] = .error (.Status 415) := by
  exact handle2_forbidden_body cfgAll reqDel [[1]] DavMethod.DELETE ⟨"/x", ""⟩ rfl
    (Or.inr (Or.inr (Or.inr (Or.inr (Or.inl rfl))))) rfl rfl
    (by decide) (by decide)

/-- C4: a request whose method maps into the verb set but is not in the
allow-list is rejected by the dispatcher with `StatusClose 405` — so no
handler (and hence no file-system or lock-system call) runs — and the full
`handle_inner` response is a `405` with `Connection: close`,
`Content-Length: 0` and an empty body, for every handler family. -/
theorem handle_method_not_allowed (cfg : Config) (req : Req) (body : BodyChunks)
    (m : DavMethod) (handlers : Dispatched → Except DavError Resp)
    (hm : dav_method req.method = .ok m)
    (hallow : cfg.allow m = false) :
    handle2 cfg req body = .error (.StatusClose 405) ∧
    handle_inner cfg req body handlers =
      { status := 405
        headers := [("Content-Length", "0"), ("connection", "close")]
        body := [] } := by
  have h2 : handle2 cfg req body = .error (.StatusClose 405) := by
    simp [handle2, hm, hallow]
  refine ⟨h2, ?_⟩
  simp [handle_inner, h2, Except.bind, errorResponse, DavError.statuscode,
    DavError.must_close]

/-- C4 witness: a GET request against an empty allow-list produces the
405 must-close response, independent of the handlers. -/
theorem handle_method_not_allowed_witness :
    handle_inner cfgNone reqPlain []
      (fun _ => .ok { status := 200, headers := [], body := [] })
      = { status := 405
          headers := [("Content-Length", "0"), ("connection", "close")]
          body := [] } := by
  exact (handle_method_not_allowed cfgNone reqPlain [] DavMethod.GET
    (fun _ => .ok { status := 200, headers := [], body := [] }) rfl rfl).2

/-- Fixture: a request with a Microsoft User-Agent. -/
def reqMs : Req := { reqPlain with userAgent := some "Microsoft-WebDAV" }

/-- C5: evaluating the error shaping on a Microsoft client whose handling
fails with 404 shows the anti-cache header block the source actually
emits: the `Pragma` header of the spec is misspelled `"Progma"` in the
code, so no `Pragma: no-cache` header is present. -/
theorem handle_inner_microsoft_404_progma :
    handle_inner cfgAll reqMs [] (fun _ => .error (.Status 404)) =
      { status := 404
        headers := [("Cache-Control", "no-store, no-cache, must-revalidate"),
                    ("Progma", "no-cache"),
                    ("Expires", "0"),
                    ("Vary", "*"),
                    ("Content-Length", "0")]
        body := [] } ∧
    (handle_inner cfgAll reqMs [] (fun _ => .error (.Status 404))).headers.lookup
        "Pragma" = none := by
  constructor <;> rfl

/-- C6: once the conditional headers pass and any configured lock system
approves the harvested tokens, `handle_mkcol` is exactly the `create_dir`
call with RFC 4918 9.3.1 error mapping: `Exists → 405`,
`NotFound → 409`, anything else propagated as a backend error. -/
theorem handle_mkcol_error_mapping (cfg : Config) (req : Req) (toks : List String)
    (hcond : if_match_get_tokens req
      (cfg.fs.metadata (DavHandler.path cfg req)).toOption cfg.fs cfg.ls
      (DavHandler.path cfg req) = .ok toks)
    (hlock : ∀ l, cfg.ls = some l →
      l.check (DavHandler.path cfg req) cfg.principal false false toks = true) :
    (cfg.fs.create_dir (DavHandler.path cfg req) = .error .Exists →
      handle_mkcol cfg req = .error (.Status 405)) ∧
    (cfg.fs.create_dir (DavHandler.path cfg req) = .error .NotFound →
      handle_mkcol cfg req = .error (.Status 409)) ∧
    (∀ e, e ≠ FsError.Exists → e ≠ FsError.NotFound →
      cfg.fs.create_dir (DavHandler.path cfg req) = .error e →
      handle_mkcol cfg req = .error (.FsError e)) := by
  have hlock2 : (match cfg.ls with
      | some locksystem =>
        locksystem.check (DavHandler.path cfg req) cfg.principal false false toks
      | none => true) = true := by
    cases hls : cfg.ls with
    | none => rfl
    | some l => exact hlock l hls
  refine ⟨?_, ?_, ?_⟩
  · intro h
    simp only [handle_mkcol, hcond, hlock2, h, Bool.not_true, Bool.false_eq_true,
      if_false]
  · intro h
    simp only [handle_mkcol, hcond, hlock2, h, Bool.not_true, Bool.false_eq_true,
      if_false]
  · intro e h1 h2 h3
    cases e with
    | Exists => exact absurd rfl h1
    | NotFound => exact absurd rfl h2
    | Forbidden =>
      simp only [handle_mkcol, hcond, hlock2, h3, Bool.not_true,
        Bool.false_eq_true, if_false]
    | IsRemote =>
      simp only [handle_mkcol, hcond, hlock2, h3, Bool.not_true,
        Bool.false_eq_true, if_false]
    | NotImplemented =>
      simp only [handle_mkcol, hcond, hlock2, h3, Bool.not_true,
        Bool.false_eq_true, if_false]
    | GeneralFailure =>
      simp only [handle_mkcol, hcond, hlock2, h3, Bool.not_true,
        Bool.false_eq_true, if_false]

/-- Fixture: a file system on which every path is missing but directory
creation fails because the target already exists. -/
def fsDirExists : FS :=
  { metadata := fun _ => .error .NotFound
    create_dir := fun _ => .error .Exists }

/-- Fixture: a MKCOL request on `/a` (no trailing slash). -/
def reqMkcolA : Req := { reqPlain with method := "MKCOL", uriPath := "/a" }

/-- Fixture: a MKCOL request on the collection form `/a/`. -/
def reqMkcolASlash : Req := { reqPlain with method := "MKCOL", uriPath := "/a/" }

/-- C6 witness: MKCOL on an existing target maps `Exists` to 405. -/
theorem handle_mkcol_error_mapping_witness :
    handle_mkcol { cfgAll with fs := fsDirExists } reqMkcolA
      = .error (.Status 405) := by
  exact (handle_mkcol_error_mapping { cfgAll with fs := fsDirExists } reqMkcolA
    [] rfl (fun l hl => by cases hl)).1 rfl

/-- C7 counterexample: a successful MKCOL on the non-slash path `/a`
returns `201 Created` with an empty header list — in particular no
`content-location` header, although the created resource is a collection.
The header is emitted only when the request path itself ends in `/`. -/
theorem handle_mkcol_no_content_location :
    handle_mkcol cfgAll reqMkcolA = .ok { status := 201, headers := [], body := [] } ∧
    (handle_mkcol cfgAll reqMkcolA).map (fun r => r.headers.lookup "content-location")
      = .ok none := by
  constructor <;> rfl

/-- C7 (amended): when the conditional and lock checks pass and
`create_dir` succeeds, the response is `201 Created`, and it carries the
`content-location` header — whose value is the trailing-slash form of the
request path with the configured prefix applied — exactly when the request
path itself is in trailing-slash (collection) form. -/
theorem handle_mkcol_created (cfg : Config) (req : Req) (toks : List String)
    (hcond : if_match_get_tokens req
      (cfg.fs.metadata (DavHandler.path cfg req)).toOption cfg.fs cfg.ls
      (DavHandler.path cfg req) = .ok toks)
    (hlock : ∀ l, cfg.ls = some l →
      l.check (DavHandler.path cfg req) cfg.principal false false toks = true)
    (hok : cfg.fs.create_dir (DavHandler.path cfg req) = .ok ()) :
    handle_mkcol cfg req =
      .ok { status := 201
            headers :=
              if (DavHandler.path cfg req).is_collection then
                [("content-location",
                  ((DavHandler.path cfg req).add_slash).with_pfx_url)]
              else []
            body := [] } := by
  have hlock2 : (match cfg.ls with
      | some locksystem =>
        locksystem.check (DavHandler.path cfg req) cfg.principal false false toks
      | none => true) = true := by
    cases hls : cfg.ls with
    | none => rfl
    | some l => exact hlock l hls
  simp only [handle_mkcol, hcond, hlock2, hok, Bool.not_true, Bool.false_eq_true,
    if_false]

/-- C7 witness (amended form): MKCOL on the collection path `/a/` yields
`201` with `content-location: /a/`. -/
theorem handle_mkcol_created_witness :
    handle_mkcol cfgAll reqMkcolASlash =
      .ok { status := 201
            headers := [("content-location", "/a/")]
            body := [] } := by
  exact (handle_mkcol_created cfgAll reqMkcolASlash [] rfl
    (fun l hl => by cases hl) rfl).trans rfl

/-- Reduction of the `mm` helper at each concrete method offered in the
missing-resource branch of `handle_options`, for the current method
OPTIONS: the static parts of the guard evaluate away, leaving only the
allow-list test (and, for LOCK, the lock-system presence). -/
theorem mm_OPTIONS (ls : Bool) (al : DavMethodSet) (v : List String) (m : String) :
    mm DavMethod.OPTIONS ls al v m DavMethod.OPTIONS =
      if al DavMethod.OPTIONS then v ++ [m] else v := rfl

/-- `mm` at MKCOL under current method OPTIONS. -/
theorem mm_MKCOL (ls : Bool) (al : DavMethodSet) (v : List String) (m : String) :
    mm DavMethod.OPTIONS ls al v m DavMethod.MKCOL =
      if al DavMethod.MKCOL then v ++ [m] else v := rfl

/-- `mm` at PUT under current method OPTIONS. -/
theorem mm_PUT (ls : Bool) (al : DavMethodSet) (v : List String) (m : String) :
    mm DavMethod.OPTIONS ls al v m DavMethod.PUT =
      if al DavMethod.PUT then v ++ [m] else v := rfl

/-- `mm` at LOCK under current method OPTIONS: LOCK additionally requires
a configured lock system. -/
theorem mm_LOCK (ls : Bool) (al : DavMethodSet) (v : List String) (m : String) :
    mm DavMethod.OPTIONS ls al v m DavMethod.LOCK =
      if ls && al DavMethod.LOCK then v ++ [m] else v := rfl

/-- C8: for an OPTIONS request on a path that is missing from the file
system and is not the star path, the `Allow` header offers exactly
OPTIONS, MKCOL and PUT filtered by the allow-list, plus LOCK when both a
lock system is configured and LOCK is allowed. -/
theorem handle_options_missing_resource (cfg : Config) (req : Req) (e : FsError)
    (hm : req.method = "OPTIONS")
    (hmeta : cfg.fs.metadata (DavHandler.path cfg req) = .error e)
    (hstar : (DavHandler.path cfg req).is_star = false) :
    handle_options cfg req =
      .ok { status := 200
            headers :=
              [("DAV", "1,2,3,sabredav-partialupdate"),
               ("MS-Author-Via", "DAV"),
               ("content-length", "0"),
               ("allow", String.intercalate ","
                 ((if cfg.allow DavMethod.OPTIONS then ["OPTIONS"] else []) ++
                  (if cfg.allow DavMethod.MKCOL then ["MKCOL"] else []) ++
                  (if cfg.allow DavMethod.PUT then ["PUT"] else []) ++
                  (if cfg.ls.isSome && cfg.allow DavMethod.LOCK then ["LOCK"]
                   else [])))]
            body := [] } := by
  have hdm : dav_method req.method = .ok DavMethod.OPTIONS := by rw [hm]; rfl
  have hisok : (Except.error e : Except FsError Meta).isOk = false := rfl
  have hmethod : (Except.ok DavMethod.OPTIONS : Except DavError DavMethod).toOption.getD
      DavMethod.OPTIONS = DavMethod.OPTIONS := rfl
  have hbeq : (DavMethod.OPTIONS == DavMethod.OPTIONS) = true := rfl
  have hlist : optionsAllowList cfg req =
      (if cfg.allow DavMethod.OPTIONS then ["OPTIONS"] else []) ++
      (if cfg.allow DavMethod.MKCOL then ["MKCOL"] else []) ++
      (if cfg.allow DavMethod.PUT then ["PUT"] else []) ++
      (if cfg.ls.isSome && cfg.allow DavMethod.LOCK then ["LOCK"] else []) := by
    simp only [optionsAllowList, hdm, hmethod, hmeta, hisok, hstar, hbeq,
      mm_OPTIONS, mm_MKCOL, mm_PUT, mm_LOCK, Bool.not_false, Bool.false_and,
      Bool.and_true, Bool.true_and, Bool.and_self, if_true, List.nil_append]
    cases h1 : cfg.allow DavMethod.OPTIONS <;>
      cases h2 : cfg.allow DavMethod.MKCOL <;>
        cases h3 : cfg.allow DavMethod.PUT <;>
          cases h4 : cfg.ls.isSome && cfg.allow DavMethod.LOCK <;>
            simp [h1, h2, h3, h4]
  rw [handle_options, hlist]

/-- Fixture: an OPTIONS request on `/a`. -/
def reqOpts : Req := { reqPlain with method := "OPTIONS", uriPath := "/a" }

/-- C8 witness: OPTIONS on a missing path with every method allowed and no
lock system advertises exactly `OPTIONS,MKCOL,PUT`. -/
theorem handle_options_missing_resource_witness :
    handle_options cfgAll reqOpts =
      .ok { status := 200
            headers :=
              [("DAV", "1,2,3,sabredav-partialupdate"),
               ("MS-Author-Via", "DAV"),
               ("content-length", "0"),
               ("allow", "OPTIONS,MKCOL,PUT")]
            body := [] } := by
  exact (handle_options_missing_resource cfgAll reqOpts FsError.NotFound
    rfl rfl rfl).trans rfl
